import Mathlib

/-!
Verification development for the gpuarray device-matrix layer.

The definitions below are a shallow embedding of src/src/cl_matrix.rs.
Pure values mirror the Rust structs; the interior mutability of the
producer-event cell (a RefCell holding Option Event) is embedded by having
every operation return the updated output matrix explicitly. Each call to
enqueue_async_kernel returns a fresh completion token from the queue; that
token is passed to the embedded operation as its final explicit parameter,
and the enqueue itself is recorded in a Dispatch value (kernel name, global
work size, wait-list) so that dispatch-level properties can be stated.

Parts of the repository referenced by cl_matrix.rs but absent from src
(the host matrix module, the compute context, the numeric-type naming
class, and the OpenCL kernel bodies) are modelled from the spec; each such
definition carries a doc comment starting with the words Modelled from the
spec.
-/

namespace GpuArray

/-- Completion token returned by the device queue when a kernel dispatch is
enqueued. The source aliases the opaque handle opencl hl Event; it is
represented here by a numeric identifier. -/
abbrev Event := Nat

/-- Modelled from the spec: the host-side dense row-major matrix container
(the matrix module of the repository is not under src). Shape is
(rows, columns) with a flat buffer of elements. -/
structure Matrix (α : Type) where
  rows : Nat
  columns : Nat
  buffer : List α
  deriving DecidableEq

/-- Modelled from the spec: Matrix from_vec builds a host matrix from a
shape and a flat vector, as used by ClMatrix get. -/
def Matrix.from_vec {α : Type} (rows columns : Nat) (v : List α) : Matrix α :=
  { rows := rows, columns := columns, buffer := v }

/-- Modelled from the spec: the ComputeContext boundary collaborator (the
context module is not under src). It owns the device queue and the compiled
program; its only contribution observable by the embedded state is the
fresh completion token each enqueue returns, which is passed explicitly to
each operation. -/
structure Context where
  queueId : Nat
  deriving DecidableEq

/-- OpenCL memory flags selected from ClMatrixMode (the values
CL_MEM_READ_ONLY, CL_MEM_WRITE_ONLY and CL_MEM_READ_WRITE of opencl cl). -/
inductive ClMemFlag where
  | CL_MEM_READ_ONLY
  | CL_MEM_WRITE_ONLY
  | CL_MEM_READ_WRITE
  deriving DecidableEq

/-- Access-mode enum of cl_matrix.rs. -/
inductive ClMatrixMode where
  | In
  | Out
  | Mut
  deriving DecidableEq

/-- The match on ClMatrixMode appearing in ClMatrix new and
ClMatrix from_matrix. -/
def clMemMode : ClMatrixMode → ClMemFlag
  | ClMatrixMode.In => ClMemFlag.CL_MEM_READ_ONLY
  | ClMatrixMode.Out => ClMemFlag.CL_MEM_WRITE_ONLY
  | ClMatrixMode.Mut => ClMemFlag.CL_MEM_READ_WRITE

/-- Modelled from the spec: the numeric-type abstraction (module num, not
under src) supplying the stable element-type name used to build kernel
names of the form vector_op_typename. -/
class Num (α : Type) where
  name : String

instance : Num Int := ⟨"int"⟩

/-- The element-type name of a supported numeric type. -/
def typeName (α : Type) [n : Num α] : String := n.name

/-- Device matrix: shape, access flag of the underlying CLBuffer, the
device-resident buffer contents, and the optional producer event. The
source stores the event in a RefCell; the embedding returns updated
values instead. -/
structure ClMatrix (α : Type) where
  rows : Nat
  columns : Nat
  memMode : ClMemFlag
  buffer : List α
  event : Option Event
  deriving DecidableEq

/-- Global work size passed to enqueue_async_kernel: the source passes
either a plain usize or a pair of usize. -/
inductive WorkSize where
  | one : Nat → WorkSize
  | two : Nat → Nat → WorkSize
  deriving DecidableEq

/-- Record of one enqueue_async_kernel call: kernel name, global work size
and the wait-list handed to the queue. Two-input operations pass a slice
of optional events; one-input operations pass the event unwrapped, which
is recorded here as a one-element list. -/
structure Dispatch where
  kernelName : String
  workSize : WorkSize
  waitList : List (Option Event)
  deriving DecidableEq

/-- Record of one queue write call; the source always passes the unit
value as the wait condition, that is, an empty wait-list. -/
structure WriteCmd where
  waitList : List Event
  deriving DecidableEq

/-- Modelled from the spec: executing a two-input elementwise kernel on the
device. Work item i, for i below the global work size, writes f a[i] b[i]
to position i of out; positions of out beyond the work size or beyond the
input lengths keep their previous contents. Out-of-range device accesses
are undefined behaviour per section 7 of the spec and are not modelled
further. -/
def runElementwise2 {α : Type} (f : α → α → α) :
    Nat → List α → List α → List α → List α
  | Nat.succ ws, a :: as, b :: bs, _ :: os => f a b :: runElementwise2 f ws as bs os
  | _, _, _, out => out

/-- Modelled from the spec: executing a one-input elementwise kernel on the
device, in the manner of runElementwise2. -/
def runElementwise1 {α : Type} (f : α → α) : Nat → List α → List α → List α
  | Nat.succ ws, a :: as, _ :: os => f a :: runElementwise1 f ws as os
  | _, _, out => out

namespace ClMatrix

variable {α : Type}

/-- ClMatrix new: allocates an uninitialized device buffer of length
rows times columns with the requested access flag (contents modelled as
default elements); no event is installed. -/
def new [Inhabited α] (ctx : Context) (rows columns : Nat)
    (mode : ClMatrixMode) : ClMatrix α :=
  { rows := rows
    columns := columns
    memMode := clMemMode mode
    buffer := List.replicate (rows * columns) default
    event := none }

/-- ClMatrix from_matrix: allocates a buffer with the shape taken from the
host matrix, then issues the host-to-device upload (a queue write with the
empty wait condition), so the device contents are those of the host
matrix; the event field stays None. -/
def from_matrix (ctx : Context) (matrix : Matrix α)
    (mode : ClMatrixMode) : ClMatrix α :=
  { rows := matrix.rows
    columns := matrix.columns
    memMode := clMemMode mode
    buffer := matrix.buffer
    event := none }

/-- ClMatrix get_event: returns the stored event when one is present. The
source returns a Ref into the RefCell; the embedding returns the value. -/
def get_event (self : ClMatrix α) : Option Event :=
  if self.event.isSome then self.event else none

/-- ClMatrix set_event: stores e as the new producer event. -/
def set_event (self : ClMatrix α) (e : Event) : ClMatrix α :=
  { self with event := some e }

/-- ClMatrix get: the source reads the buffer through the queue, waiting on
the unwrapped producer event. Unwrapping panics when no producer event is
stored; the panic is embedded as none. Otherwise the queue waits on the
event and yields the buffer contents, wrapped by Matrix from_vec with the
device shape. -/
def get (self : ClMatrix α) (ctx : Context) : Option (Matrix α) :=
  (self.get_event).map fun _ =>
    Matrix.from_vec self.rows self.columns self.buffer

/-- ClMatrix set: a queue write of the host matrix contents over the device
buffer, with the empty wait condition; the event field is not touched. -/
def set (self : ClMatrix α) (ctx : Context) (matrix : Matrix α) :
    ClMatrix α × WriteCmd :=
  ({ self with buffer := matrix.buffer }, { waitList := [] })

/-- ClMatrix copy_to: kernel vector_copy_to over work size equal to the
buffer length of self, wait-list the unwrapped event of self (panic,
embedded as none, when absent); the completion token becomes the producer
of output. -/
def copy_to [Num α] (self : ClMatrix α) (ctx : Context) (output : ClMatrix α)
    (e : Event) : Option (ClMatrix α × Dispatch) :=
  (self.get_event).map fun ev =>
    (set_event
      { output with
          buffer := runElementwise1 id self.buffer.length self.buffer output.buffer } e,
     { kernelName := "vector_copy_to_" ++ typeName α
       workSize := WorkSize.one self.buffer.length
       waitList := [some ev] })

/-- ClMatrix add: kernel vector_add over work size equal to the buffer
length of self, wait-list the slice of the optional events of self and
other; the completion token becomes the producer of output. -/
def add [Num α] [Add α] (self : ClMatrix α) (ctx : Context)
    (other output : ClMatrix α) (e : Event) : ClMatrix α × Dispatch :=
  let event_list : List (Option Event) := [self.get_event, other.get_event]
  (set_event
    { output with
        buffer := runElementwise2 (fun x y => x + y) self.buffer.length
          self.buffer other.buffer output.buffer } e,
   { kernelName := "vector_add_" ++ typeName α
     workSize := WorkSize.one self.buffer.length
     waitList := event_list })

/-- ClMatrix sub, with the same dispatch structure as add. -/
def sub [Num α] [Sub α] (self : ClMatrix α) (ctx : Context)
    (other output : ClMatrix α) (e : Event) : ClMatrix α × Dispatch :=
  let event_list : List (Option Event) := [self.get_event, other.get_event]
  (set_event
    { output with
        buffer := runElementwise2 (fun x y => x - y) self.buffer.length
          self.buffer other.buffer output.buffer } e,
   { kernelName := "vector_sub_" ++ typeName α
     workSize := WorkSize.one self.buffer.length
     waitList := event_list })

/-- ClMatrix multiply, with the same dispatch structure as add. -/
def multiply [Num α] [Mul α] (self : ClMatrix α) (ctx : Context)
    (other output : ClMatrix α) (e : Event) : ClMatrix α × Dispatch :=
  let event_list : List (Option Event) := [self.get_event, other.get_event]
  (set_event
    { output with
        buffer := runElementwise2 (fun x y => x * y) self.buffer.length
          self.buffer other.buffer output.buffer } e,
   { kernelName := "vector_multiply_" ++ typeName α
     workSize := WorkSize.one self.buffer.length
     waitList := event_list })

/-- ClMatrix transpose: kernel vector_transpose over the two-dimensional
work size (self rows, self columns), the row and column counts of self
passed as kernel arguments, wait-list the unwrapped event of self (panic,
embedded as none, when absent). The numeric content effect of this kernel
is needed by none of the stated properties and the output buffer is
carried unchanged. -/
def transpose [Num α] (self : ClMatrix α) (ctx : Context) (output : ClMatrix α)
    (e : Event) : Option (ClMatrix α × Dispatch) :=
  (self.get_event).map fun ev =>
    (set_event output e,
     { kernelName := "vector_transpose_" ++ typeName α
       workSize := WorkSize.two self.rows self.columns
       waitList := [some ev] })

/-- ClMatrix dot: kernel vector_dot over the two-dimensional work size
(self rows, other columns), the column counts of self and other passed as
kernel arguments, wait-list the slice of the optional events of self and
other. The numeric content effect is needed by none of the stated
properties and the output buffer is carried unchanged. -/
def dot [Num α] (self : ClMatrix α) (ctx : Context)
    (other output : ClMatrix α) (e : Event) : ClMatrix α × Dispatch :=
  let event_list : List (Option Event) := [self.get_event, other.get_event]
  (set_event output e,
   { kernelName := "vector_dot_" ++ typeName α
     workSize := WorkSize.two self.rows other.columns
     waitList := event_list })

/-- ClMatrix max: kernel vector_max over work size equal to the buffer
length of self, threshold passed as a kernel argument, wait-list the
unwrapped event of self (panic, embedded as none, when absent). Modelled
from the spec: the kernel thresholds each element from below against the
scalar. -/
def max [Num α] [Max α] (self : ClMatrix α) (ctx : Context) (threshold : α)
    (output : ClMatrix α) (e : Event) : Option (ClMatrix α × Dispatch) :=
  (self.get_event).map fun ev =>
    (set_event
      { output with
          buffer := runElementwise1 (fun x => Max.max x threshold)
            self.buffer.length self.buffer output.buffer } e,
     { kernelName := "vector_max_" ++ typeName α
       workSize := WorkSize.one self.buffer.length
       waitList := [some ev] })

/-- ClMatrix min, in the manner of max with the kernel thresholding from
above. -/
def min [Num α] [Min α] (self : ClMatrix α) (ctx : Context) (threshold : α)
    (output : ClMatrix α) (e : Event) : Option (ClMatrix α × Dispatch) :=
  (self.get_event).map fun ev =>
    (set_event
      { output with
          buffer := runElementwise1 (fun x => Min.min x threshold)
            self.buffer.length self.buffer output.buffer } e,
     { kernelName := "vector_min_" ++ typeName α
       workSize := WorkSize.one self.buffer.length
       waitList := [some ev] })

/-- ClMatrix dmax: same dispatch structure as max with kernel vector_dmax.
The numeric content effect (derivative of the threshold) is needed by none
of the stated properties and the output buffer is carried unchanged. -/
def dmax [Num α] (self : ClMatrix α) (ctx : Context) (threshold : α)
    (output : ClMatrix α) (e : Event) : Option (ClMatrix α × Dispatch) :=
  (self.get_event).map fun ev =>
    (set_event output e,
     { kernelName := "vector_dmax_" ++ typeName α
       workSize := WorkSize.one self.buffer.length
       waitList := [some ev] })

/-- ClMatrix dmin, in the manner of dmax. -/
def dmin [Num α] (self : ClMatrix α) (ctx : Context) (threshold : α)
    (output : ClMatrix α) (e : Event) : Option (ClMatrix α × Dispatch) :=
  (self.get_event).map fun ev =>
    (set_event output e,
     { kernelName := "vector_dmin_" ++ typeName α
       workSize := WorkSize.one self.buffer.length
       waitList := [some ev] })

/-- ClMatrix mse: kernel vector_mse over work size equal to the column
count of self, the row and column counts of self passed as kernel
arguments, wait-list the slice of the optional events of self and train.
The numeric content effect (per-column reduction) is needed by none of the
stated properties and the output buffer is carried unchanged. -/
def mse [Num α] (self : ClMatrix α) (ctx : Context)
    (train output : ClMatrix α) (e : Event) : ClMatrix α × Dispatch :=
  let event_list : List (Option Event) := [self.get_event, train.get_event]
  (set_event output e,
   { kernelName := "vector_mse_" ++ typeName α
     workSize := WorkSize.one self.columns
     waitList := event_list })

/-- ClMatrix dmse, in the manner of mse. -/
def dmse [Num α] (self : ClMatrix α) (ctx : Context)
    (train output : ClMatrix α) (e : Event) : ClMatrix α × Dispatch :=
  let event_list : List (Option Event) := [self.get_event, train.get_event]
  (set_event output e,
   { kernelName := "vector_dmse_" ++ typeName α
     workSize := WorkSize.one self.columns
     waitList := event_list })

end ClMatrix

/-! Helper lemmas about the modelled kernel execution and about reading
matrices back. -/

/-- When the work size and both input lengths agree with the output length,
the two-input elementwise kernel computes exactly the pointwise image of
the inputs. -/
theorem runElementwise2_eq_zipWith {α : Type} (f : α → α → α) :
    ∀ (a b out : List α), a.length = b.length → a.length = out.length →
      runElementwise2 f a.length a b out = List.zipWith f a b := by
  intro a
  induction a with
  | nil =>
    intro b out _ ho
    cases out with
    | nil => rfl
    | cons z zs => simp at ho
  | cons x xs ih =>
    intro b out hb ho
    cases b with
    | nil => simp at hb
    | cons y ys =>
      cases out with
      | nil => simp at ho
      | cons z zs =>
        simp only [List.length_cons] at hb ho
        show f x y :: runElementwise2 f xs.length xs ys zs = f x y :: List.zipWith f xs ys
        rw [ih ys zs (by omega) (by omega)]

/-- When the work size and the input length agree with the output length,
the one-input elementwise kernel computes exactly the map of the input. -/
theorem runElementwise1_eq_map {α : Type} (f : α → α) :
    ∀ (a out : List α), a.length = out.length →
      runElementwise1 f a.length a out = a.map f := by
  intro a
  induction a with
  | nil =>
    intro out ho
    cases out with
    | nil => rfl
    | cons z zs => simp at ho
  | cons x xs ih =>
    intro out ho
    cases out with
    | nil => simp at ho
    | cons z zs =>
      simp only [List.length_cons] at ho
      show f x :: runElementwise1 f xs.length xs zs = f x :: xs.map f
      rw [ih zs (by omega)]

/-- Reading an in-range position of a pointwise combination. -/
theorem zipWith_getD {α : Type} (f : α → α → α) (d : α) :
    ∀ (a b : List α) (i : Nat), i < a.length → i < b.length →
      (List.zipWith f a b).getD i d = f (a.getD i d) (b.getD i d) := by
  intro a
  induction a with
  | nil => intro b i h1 _; simp at h1
  | cons x xs ih =>
    intro b i h1 h2
    cases b with
    | nil => simp at h2
    | cons y ys =>
      cases i with
      | zero => rfl
      | succ j =>
        simp only [List.length_cons] at h1 h2
        show (List.zipWith f xs ys).getD j d = f ((x :: xs).getD (j + 1) d) ((y :: ys).getD (j + 1) d)
        rw [List.getD_cons_succ, List.getD_cons_succ]
        exact ih ys j (by omega) (by omega)

/-- Reading an in-range position of a mapped list. -/
theorem map_getD {α : Type} (f : α → α) (d : α) :
    ∀ (a : List α) (i : Nat), i < a.length →
      (a.map f).getD i d = f (a.getD i d) := by
  intro a
  induction a with
  | nil => intro i h; simp at h
  | cons x xs ih =>
    intro i h
    cases i with
    | zero => rfl
    | succ j =>
      simp only [List.length_cons] at h
      show (xs.map f).getD j d = f ((x :: xs).getD (j + 1) d)
      rw [List.getD_cons_succ]
      exact ih j (by omega)

/-- The Ref-filtering wrapper in get_event returns exactly the stored
optional event. -/
theorem ClMatrix.get_event_eq {α : Type} (m : ClMatrix α) :
    m.get_event = m.event := by
  unfold ClMatrix.get_event
  cases h : m.event <;> simp [h]

/-- Reading a matrix whose producer event is present yields the device
contents under the device shape. -/
theorem ClMatrix.get_of_event_some {α : Type} (m : ClMatrix α) (c : Context)
    (ev : Event) (h : m.event = some ev) :
    m.get c = some (Matrix.from_vec m.rows m.columns m.buffer) := by
  unfold ClMatrix.get ClMatrix.get_event
  rw [h]
  rfl

/-! Claim theorems. -/

/-- C1 counterexample: a concrete device matrix whose producer event is
None; get evaluates to none, the embedding of the panic raised by
unwrapping the absent event, so the read does not proceed and no host
matrix is returned, refuting the claim that get does not fail in this
case. -/
theorem get_without_producer_event_fails_cex :
    ClMatrix.get
      ({ rows := 1, columns := 2, memMode := ClMemFlag.CL_MEM_READ_WRITE,
         buffer := [5, 6], event := none } : ClMatrix Int) ⟨0⟩ = none := rfl

/-- C1 amended: for every device matrix whose producer event is None, get
fails (it panics unwrapping the absent producer event, embedded as none);
for every device matrix whose producer event is present, the read proceeds
and returns a host matrix with the same rows and columns as the device
matrix. -/
theorem get_producer_event_behavior (m : ClMatrix Int) (c : Context)
    (ev : Event) :
    ClMatrix.get { m with event := none } c = none ∧
    ∃ h, ClMatrix.get { m with event := some ev } c = some h ∧
      h.rows = m.rows ∧ h.columns = m.columns :=
  ⟨rfl, Matrix.from_vec m.rows m.columns m.buffer, rfl, rfl, rfl⟩

/-- C2: for every binary operation (add, sub, multiply, dot, mse, dmse) on
inputs self and other (or train) with output out, the wait-list attached
to the enqueued kernel is exactly the list of the producer events of the
two input matrices; moreover the whole dispatch is independent of the
output argument, so the prior producer event of the output matrix is never
consulted and enters the wait-list only insofar as it is the event of an
input. -/
theorem binary_op_wait_lists (self other output output2 : ClMatrix Int)
    (c : Context) (e : Event) :
    (ClMatrix.add self c other output e).2.waitList = [self.event, other.event] ∧
    (ClMatrix.sub self c other output e).2.waitList = [self.event, other.event] ∧
    (ClMatrix.multiply self c other output e).2.waitList = [self.event, other.event] ∧
    (ClMatrix.dot self c other output e).2.waitList = [self.event, other.event] ∧
    (ClMatrix.mse self c other output e).2.waitList = [self.event, other.event] ∧
    (ClMatrix.dmse self c other output e).2.waitList = [self.event, other.event] ∧
    (ClMatrix.add self c other output e).2 = (ClMatrix.add self c other output2 e).2 ∧
    (ClMatrix.sub self c other output e).2 = (ClMatrix.sub self c other output2 e).2 ∧
    (ClMatrix.multiply self c other output e).2 = (ClMatrix.multiply self c other output2 e).2 ∧
    (ClMatrix.dot self c other output e).2 = (ClMatrix.dot self c other output2 e).2 ∧
    (ClMatrix.mse self c other output e).2 = (ClMatrix.mse self c other output2 e).2 ∧
    (ClMatrix.dmse self c other output e).2 = (ClMatrix.dmse self c other output2 e).2 := by
  refine ⟨?_, ?_, ?_, ?_, ?_, ?_, rfl, rfl, rfl, rfl, rfl, rfl⟩ <;>
    simp [ClMatrix.add, ClMatrix.sub, ClMatrix.multiply, ClMatrix.dot,
      ClMatrix.mse, ClMatrix.dmse, ClMatrix.get_event_eq]

/-- C3: the producer field of a device matrix is never cleared back to None
by any public operation: every operation naming a matrix as output stores
the new completion token (some e) via set_event, replacing any prior
producer (quantified here by an arbitrary prior state of output, covering
both None and some prior token), set leaves the field exactly as it was,
and get never writes the field at all (its embedding returns only the host
matrix and no updated device state, mirroring a source body that contains
no event store). -/
theorem producer_event_never_cleared (self other output : ClMatrix Int)
    (c : Context) (M : Matrix Int) (e ev : Event) (t : Int) :
    (ClMatrix.set_event output e).event = some e ∧
    ((ClMatrix.add self c other output e).1).event = some e ∧
    ((ClMatrix.sub self c other output e).1).event = some e ∧
    ((ClMatrix.multiply self c other output e).1).event = some e ∧
    ((ClMatrix.dot self c other output e).1).event = some e ∧
    ((ClMatrix.mse self c other output e).1).event = some e ∧
    ((ClMatrix.dmse self c other output e).1).event = some e ∧
    ((ClMatrix.add self c other { output with event := some ev } e).1).event = some e ∧
    (∃ r, ClMatrix.copy_to { self with event := some ev } c output e = some r ∧
      (r.1).event = some e) ∧
    (∃ r, ClMatrix.transpose { self with event := some ev } c output e = some r ∧
      (r.1).event = some e) ∧
    (∃ r, ClMatrix.max { self with event := some ev } c t output e = some r ∧
      (r.1).event = some e) ∧
    (∃ r, ClMatrix.min { self with event := some ev } c t output e = some r ∧
      (r.1).event = some e) ∧
    (∃ r, ClMatrix.dmax { self with event := some ev } c t output e = some r ∧
      (r.1).event = some e) ∧
    (∃ r, ClMatrix.dmin { self with event := some ev } c t output e = some r ∧
      (r.1).event = some e) ∧
    ((ClMatrix.set output c M).1).event = output.event :=
  ⟨rfl, rfl, rfl, rfl, rfl, rfl, rfl, rfl,
   ⟨_, rfl, rfl⟩, ⟨_, rfl, rfl⟩, ⟨_, rfl, rfl⟩, ⟨_, rfl, rfl⟩,
   ⟨_, rfl, rfl⟩, ⟨_, rfl, rfl⟩, rfl⟩

/-- C4 counterexample: a concrete host matrix M; uploading it with
from_matrix and immediately downloading with get yields none (the panic on
unwrapping the absent producer event), not M, refuting the round-trip as
claimed. -/
theorem round_trip_immediately_after_upload_fails_cex :
    ClMatrix.get
      (ClMatrix.from_matrix ⟨0⟩
        ({ rows := 1, columns := 2, buffer := [3, 4] } : Matrix Int)
        ClMatrixMode.In) ⟨0⟩ = none ∧
    ClMatrix.get
      (ClMatrix.from_matrix ⟨0⟩
        ({ rows := 1, columns := 2, buffer := [3, 4] } : Matrix Int)
        ClMatrixMode.In) ⟨0⟩ ≠
      some ({ rows := 1, columns := 2, buffer := [3, 4] } : Matrix Int) := by
  exact ⟨rfl, by decide⟩

/-- C4 amended: for every host matrix M of any element type, from_matrix
stores exactly the shape and contents of M in the device matrix, but its
producer event is None, so an immediate download with get fails (panics,
embedded as none); once a producer event is present on the uploaded
matrix, get returns a host matrix equal to M element-wise. -/
theorem round_trip_after_producer_event {α : Type} (c : Context)
    (M : Matrix α) (mode : ClMatrixMode) (ev : Event) :
    (ClMatrix.from_matrix c M mode).buffer = M.buffer ∧
    (ClMatrix.from_matrix c M mode).rows = M.rows ∧
    (ClMatrix.from_matrix c M mode).columns = M.columns ∧
    ClMatrix.get (ClMatrix.from_matrix c M mode) c = none ∧
    ClMatrix.get { ClMatrix.from_matrix c M mode with event := some ev } c =
      some M :=
  ⟨rfl, rfl, rfl, rfl, rfl⟩

/-- C5: set issues the host-to-device write with an empty wait-list (it
does not wait on the producer event of the matrix) and leaves the producer
event field, the rows and the columns exactly as they were before the
call. -/
theorem set_empty_wait_list_and_frame (m : ClMatrix Int) (c : Context)
    (M : Matrix Int) :
    ((ClMatrix.set m c M).2).waitList = [] ∧
    ((ClMatrix.set m c M).1).event = m.event ∧
    ((ClMatrix.set m c M).1).rows = m.rows ∧
    ((ClMatrix.set m c M).1).columns = m.columns :=
  ⟨rfl, rfl, rfl, rfl⟩

/-- C6: for every host matrix, from_matrix produces a device matrix whose
rows and columns equal those of the host matrix and whose producer event
is None on return, the upload being issued without installing a completion
token. -/
theorem from_matrix_shape_and_no_event (c : Context) (M : Matrix Int)
    (mode : ClMatrixMode) :
    (ClMatrix.from_matrix c M mode).rows = M.rows ∧
    (ClMatrix.from_matrix c M mode).columns = M.columns ∧
    (ClMatrix.from_matrix c M mode).event = none :=
  ⟨rfl, rfl, rfl⟩

/-- C7 counterexample: a concrete add whose output matrix has buffer length
3 (rows times columns) while self has buffer length 2; the dispatched work
size is 2, the buffer length of self, not the buffer length 3 of the
output, refuting that elementwise operations enqueue over the buffer
length of the output. -/
theorem elementwise_work_size_not_output_cex :
    ((ClMatrix.add
        ({ rows := 1, columns := 2, memMode := ClMemFlag.CL_MEM_READ_ONLY,
           buffer := [1, 2], event := none } : ClMatrix Int) ⟨0⟩
        { rows := 1, columns := 2, memMode := ClMemFlag.CL_MEM_READ_ONLY,
          buffer := [3, 4], event := none }
        { rows := 1, columns := 3, memMode := ClMemFlag.CL_MEM_WRITE_ONLY,
          buffer := [0, 0, 0], event := none } 7).2).workSize =
      WorkSize.one 2 ∧
    ({ rows := 1, columns := 3, memMode := ClMemFlag.CL_MEM_WRITE_ONLY,
       buffer := [0, 0, 0], event := none } : ClMatrix Int).buffer.length = 3 ∧
    WorkSize.one 2 ≠ WorkSize.one 3 := by
  exact ⟨rfl, rfl, by decide⟩

/-- C7 amended: every operation enqueues its kernel over a work size
derived from its inputs: the elementwise operations (add, sub, multiply,
copy_to, max, min, dmax, dmin) over the buffer length of self (rows times
columns of self, which coincides with the buffer length of the output only
when the shapes agree), transpose over the pair (self rows, self columns),
dot over the pair (self rows, other columns), and mse and dmse over the
column count of self. -/
theorem work_sizes_from_inputs (self other output : ClMatrix Int)
    (c : Context) (e ev : Event) (t : Int) :
    (ClMatrix.add self c other output e).2.workSize = WorkSize.one self.buffer.length ∧
    (ClMatrix.sub self c other output e).2.workSize = WorkSize.one self.buffer.length ∧
    (ClMatrix.multiply self c other output e).2.workSize = WorkSize.one self.buffer.length ∧
    (∃ r, ClMatrix.copy_to { self with event := some ev } c output e = some r ∧
      r.2.workSize = WorkSize.one self.buffer.length) ∧
    (∃ r, ClMatrix.max { self with event := some ev } c t output e = some r ∧
      r.2.workSize = WorkSize.one self.buffer.length) ∧
    (∃ r, ClMatrix.min { self with event := some ev } c t output e = some r ∧
      r.2.workSize = WorkSize.one self.buffer.length) ∧
    (∃ r, ClMatrix.dmax { self with event := some ev } c t output e = some r ∧
      r.2.workSize = WorkSize.one self.buffer.length) ∧
    (∃ r, ClMatrix.dmin { self with event := some ev } c t output e = some r ∧
      r.2.workSize = WorkSize.one self.buffer.length) ∧
    (∃ r, ClMatrix.transpose { self with event := some ev } c output e = some r ∧
      r.2.workSize = WorkSize.two self.rows self.columns) ∧
    (ClMatrix.dot self c other output e).2.workSize = WorkSize.two self.rows other.columns ∧
    (ClMatrix.mse self c other output e).2.workSize = WorkSize.one self.columns ∧
    (ClMatrix.dmse self c other output e).2.workSize = WorkSize.one self.columns :=
  ⟨rfl, rfl, rfl, ⟨_, rfl, rfl⟩, ⟨_, rfl, rfl⟩, ⟨_, rfl, rfl⟩,
   ⟨_, rfl, rfl⟩, ⟨_, rfl, rfl⟩, ⟨_, rfl, rfl⟩, rfl, rfl, rfl⟩

/-- C8: shape mismatches between operands are not validated: for every
pair of device matrices of arbitrary, possibly unequal, shapes (no
hypothesis below relates the shapes of self, other and output in any way),
each binary operation enqueues its kernel and installs the completion
token on the output, raising no shape-mismatch error; the final conjunct
exhibits a concrete dot with inner dimensions 3 and 5 which still
enqueues. -/
theorem no_shape_validation (self other output : ClMatrix Int)
    (c : Context) (e : Event) :
    ((ClMatrix.add self c other output e).1).event = some e ∧
    (ClMatrix.add self c other output e).2.kernelName = "vector_add_int" ∧
    ((ClMatrix.sub self c other output e).1).event = some e ∧
    (ClMatrix.sub self c other output e).2.kernelName = "vector_sub_int" ∧
    ((ClMatrix.multiply self c other output e).1).event = some e ∧
    (ClMatrix.multiply self c other output e).2.kernelName = "vector_multiply_int" ∧
    ((ClMatrix.dot self c other output e).1).event = some e ∧
    (ClMatrix.dot self c other output e).2.kernelName = "vector_dot_int" ∧
    ((ClMatrix.mse self c other output e).1).event = some e ∧
    (ClMatrix.mse self c other output e).2.kernelName = "vector_mse_int" ∧
    ((ClMatrix.dmse self c other output e).1).event = some e ∧
    (ClMatrix.dmse self c other output e).2.kernelName = "vector_dmse_int" ∧
    ((ClMatrix.dot
        ({ rows := 2, columns := 3, memMode := ClMemFlag.CL_MEM_READ_ONLY,
           buffer := [1, 2, 3, 4, 5, 6], event := none } : ClMatrix Int) ⟨0⟩
        { rows := 5, columns := 4, memMode := ClMemFlag.CL_MEM_READ_ONLY,
          buffer := List.replicate 20 0, event := none }
        { rows := 2, columns := 4, memMode := ClMemFlag.CL_MEM_WRITE_ONLY,
          buffer := List.replicate 8 0, event := none } 1).1).event = some 1 :=
  ⟨rfl, rfl, rfl, rfl, rfl, rfl, rfl, rfl, rfl, rfl, rfl, rfl, rfl⟩

/-- C10: for every device matrix whose producer event is None, each
single-input operation (copy_to, transpose, max, min, dmax, dmin) fails
(panics, embedded as none) when invoked on it, because it unconditionally
unwraps the optional producer event of the matrix to build the wait-list;
unlike the two-input operations, shown in the final conjuncts to accept
absent producer events on both inputs and still install the completion
token. -/
theorem single_input_ops_panic_without_event (m other output : ClMatrix Int)
    (c : Context) (e : Event) (t : Int) :
    ClMatrix.copy_to { m with event := none } c output e = none ∧
    ClMatrix.transpose { m with event := none } c output e = none ∧
    ClMatrix.max { m with event := none } c t output e = none ∧
    ClMatrix.min { m with event := none } c t output e = none ∧
    ClMatrix.dmax { m with event := none } c t output e = none ∧
    ClMatrix.dmin { m with event := none } c t output e = none ∧
    ((ClMatrix.add { m with event := none } c { other with event := none }
        output e).1).event = some e ∧
    ((ClMatrix.dot { m with event := none } c { other with event := none }
        output e).1).event = some e ∧
    ((ClMatrix.mse { m with event := none } c { other with event := none }
        output e).1).event = some e :=
  ⟨rfl, rfl, rfl, rfl, rfl, rfl, rfl, rfl, rfl⟩

/-- C9: elementwise correctness. For every pair of device matrices A and B
of equal shape (with an output matrix of that same shape, each buffer of
the length rows times columns demanded by the invariant of section 3 of
the spec, and producer events present so that the downloads of A and B
succeed), downloading the result of add yields, at every index i, the sum
of the downloaded A and B at i; the analogous laws hold for sub and
multiply, and for max and min against a scalar threshold. -/
theorem elementwise_download_laws (A B out : ClMatrix Int) (c : Context)
    (e1 e2 e3 e4 e5 ea eb : Event) (t : Int) (i : Nat)
    (hwfA : A.buffer.length = A.rows * A.columns)
    (hwfB : B.buffer.length = B.rows * B.columns)
    (hwfO : out.buffer.length = out.rows * out.columns)
    (hrB : B.rows = A.rows) (hcB : B.columns = A.columns)
    (hrO : out.rows = A.rows) (hcO : out.columns = A.columns)
    (hA : A.event = some ea) (hB : B.event = some eb)
    (hi : i < A.rows * A.columns) :
    ∃ dA dB dAdd dSub dMul dMax dMin : Matrix Int,
      ClMatrix.get A c = some dA ∧
      ClMatrix.get B c = some dB ∧
      ClMatrix.get (ClMatrix.add A c B out e1).1 c = some dAdd ∧
      ClMatrix.get (ClMatrix.sub A c B out e2).1 c = some dSub ∧
      ClMatrix.get (ClMatrix.multiply A c B out e3).1 c = some dMul ∧
      (∃ r, ClMatrix.max A c t out e4 = some r ∧ ClMatrix.get r.1 c = some dMax) ∧
      (∃ r, ClMatrix.min A c t out e5 = some r ∧ ClMatrix.get r.1 c = some dMin) ∧
      dAdd.buffer.getD i 0 = dA.buffer.getD i 0 + dB.buffer.getD i 0 ∧
      dSub.buffer.getD i 0 = dA.buffer.getD i 0 - dB.buffer.getD i 0 ∧
      dMul.buffer.getD i 0 = dA.buffer.getD i 0 * dB.buffer.getD i 0 ∧
      dMax.buffer.getD i 0 = Max.max (dA.buffer.getD i 0) t ∧
      dMin.buffer.getD i 0 = Min.min (dA.buffer.getD i 0) t := by
  have hlAB : A.buffer.length = B.buffer.length := by
    rw [hwfA, hwfB, hrB, hcB]
  have hlAO : A.buffer.length = out.buffer.length := by
    rw [hwfA, hwfO, hrO, hcO]
  have hiA : i < A.buffer.length := by rw [hwfA]; exact hi
  have hmax : ClMatrix.max A c t out e4 =
      some (ClMatrix.set_event
        { out with
            buffer := runElementwise1 (fun x => Max.max x t)
              A.buffer.length A.buffer out.buffer } e4,
        { kernelName := "vector_max_" ++ typeName Int,
          workSize := WorkSize.one A.buffer.length,
          waitList := [some ea] }) := by
    unfold ClMatrix.max ClMatrix.get_event
    rw [hA]
    rfl
  have hmin : ClMatrix.min A c t out e5 =
      some (ClMatrix.set_event
        { out with
            buffer := runElementwise1 (fun x => Min.min x t)
              A.buffer.length A.buffer out.buffer } e5,
        { kernelName := "vector_min_" ++ typeName Int,
          workSize := WorkSize.one A.buffer.length,
          waitList := [some ea] }) := by
    unfold ClMatrix.min ClMatrix.get_event
    rw [hA]
    rfl
  refine ⟨Matrix.from_vec A.rows A.columns A.buffer,
          Matrix.from_vec B.rows B.columns B.buffer,
          Matrix.from_vec out.rows out.columns
            (runElementwise2 (fun x y => x + y) A.buffer.length
              A.buffer B.buffer out.buffer),
          Matrix.from_vec out.rows out.columns
            (runElementwise2 (fun x y => x - y) A.buffer.length
              A.buffer B.buffer out.buffer),
          Matrix.from_vec out.rows out.columns
            (runElementwise2 (fun x y => x * y) A.buffer.length
              A.buffer B.buffer out.buffer),
          Matrix.from_vec out.rows out.columns
            (runElementwise1 (fun x => Max.max x t) A.buffer.length
              A.buffer out.buffer),
          Matrix.from_vec out.rows out.columns
            (runElementwise1 (fun x => Min.min x t) A.buffer.length
              A.buffer out.buffer),
          ClMatrix.get_of_event_some A c ea hA,
          ClMatrix.get_of_event_some B c eb hB,
          rfl, rfl, rfl, ⟨_, hmax, rfl⟩, ⟨_, hmin, rfl⟩,
          ?_, ?_, ?_, ?_, ?_⟩
  · show (runElementwise2 (fun x y => x + y) A.buffer.length
        A.buffer B.buffer out.buffer).getD i 0 =
      A.buffer.getD i 0 + B.buffer.getD i 0
    rw [runElementwise2_eq_zipWith _ _ _ _ hlAB hlAO]
    exact zipWith_getD _ _ _ _ _ hiA (hlAB ▸ hiA)
  · show (runElementwise2 (fun x y => x - y) A.buffer.length
        A.buffer B.buffer out.buffer).getD i 0 =
      A.buffer.getD i 0 - B.buffer.getD i 0
    rw [runElementwise2_eq_zipWith _ _ _ _ hlAB hlAO]
    exact zipWith_getD _ _ _ _ _ hiA (hlAB ▸ hiA)
  · show (runElementwise2 (fun x y => x * y) A.buffer.length
        A.buffer B.buffer out.buffer).getD i 0 =
      A.buffer.getD i 0 * B.buffer.getD i 0
    rw [runElementwise2_eq_zipWith _ _ _ _ hlAB hlAO]
    exact zipWith_getD _ _ _ _ _ hiA (hlAB ▸ hiA)
  · show (runElementwise1 (fun x => Max.max x t) A.buffer.length
        A.buffer out.buffer).getD i 0 = Max.max (A.buffer.getD i 0) t
    rw [runElementwise1_eq_map _ _ _ hlAO]
    exact map_getD _ _ _ _ hiA
  · show (runElementwise1 (fun x => Min.min x t) A.buffer.length
        A.buffer out.buffer).getD i 0 = Min.min (A.buffer.getD i 0) t
    rw [runElementwise1_eq_map _ _ _ hlAO]
    exact map_getD _ _ _ _ hiA

/-- Concrete device matrices for evaluating the elementwise laws: two
uploaded one-by-two inputs with producer events present and a matching
output. -/
def sampleA : ClMatrix Int :=
  { rows := 1, columns := 2, memMode := ClMemFlag.CL_MEM_READ_ONLY,
    buffer := [1, 2], event := some 10 }

def sampleB : ClMatrix Int :=
  { rows := 1, columns := 2, memMode := ClMemFlag.CL_MEM_READ_ONLY,
    buffer := [3, 4], event := some 11 }

def sampleOut : ClMatrix Int :=
  { rows := 1, columns := 2, memMode := ClMemFlag.CL_MEM_WRITE_ONLY,
    buffer := [0, 0], event := none }

/-- Witness for the elementwise laws: the downloads and index laws hold at
the concrete matrices sampleA, sampleB and sampleOut with threshold 2 and
index 0, every hypothesis discharged by evaluation. -/
theorem elementwise_download_laws_witness :
    ∃ dA dB dAdd dSub dMul dMax dMin : Matrix Int,
      ClMatrix.get sampleA ⟨0⟩ = some dA ∧
      ClMatrix.get sampleB ⟨0⟩ = some dB ∧
      ClMatrix.get (ClMatrix.add sampleA ⟨0⟩ sampleB sampleOut 1).1 ⟨0⟩ = some dAdd ∧
      ClMatrix.get (ClMatrix.sub sampleA ⟨0⟩ sampleB sampleOut 2).1 ⟨0⟩ = some dSub ∧
      ClMatrix.get (ClMatrix.multiply sampleA ⟨0⟩ sampleB sampleOut 3).1 ⟨0⟩ = some dMul ∧
      (∃ r, ClMatrix.max sampleA ⟨0⟩ 2 sampleOut 4 = some r ∧
        ClMatrix.get r.1 ⟨0⟩ = some dMax) ∧
      (∃ r, ClMatrix.min sampleA ⟨0⟩ 2 sampleOut 5 = some r ∧
        ClMatrix.get r.1 ⟨0⟩ = some dMin) ∧
      dAdd.buffer.getD 0 0 = dA.buffer.getD 0 0 + dB.buffer.getD 0 0 ∧
      dSub.buffer.getD 0 0 = dA.buffer.getD 0 0 - dB.buffer.getD 0 0 ∧
      dMul.buffer.getD 0 0 = dA.buffer.getD 0 0 * dB.buffer.getD 0 0 ∧
      dMax.buffer.getD 0 0 = Max.max (dA.buffer.getD 0 0) 2 ∧
      dMin.buffer.getD 0 0 = Min.min (dA.buffer.getD 0 0) 2 :=
  elementwise_download_laws sampleA sampleB sampleOut ⟨0⟩ 1 2 3 4 5 10 11 2 0
    (by decide) (by decide) (by decide) (by decide) (by decide)
    (by decide) (by decide) (by decide) (by decide) (by decide)

end GpuArray
